import Mathlib

/-!
# Verification of the turso-cli shell core (src/internal/cmd/db_shell.go)

Shallow embedding of the resolution-and-dispatch subsystem of the `db shell`
command, together with models of the library functions it delegates to:

* Go `net/url.ParseRequestURI` / `net/url.Parse` (standard library),
  modelled at character level (Go operates on bytes; for valid UTF-8 input
  and ASCII metacharacters the two views agree);
* `github.com/xwb1989/sqlparser.SplitStatementToPieces` and the SQL string
  tokenizer it drives;
* Go `encoding/json.Marshal` for the `QueryRequest` struct;
* the repository-internal packages absent from the reviewed sources
  (`internal/prompt` spinner, `settings`, `turso` client, the
  `libsql-shell-go` REPL front end), modelled from the specification.

Definitions first, then one theorem per claim with witnesses.
-/

/-- A Go `error` value: only the message matters for this development. -/
structure GoError where
  msg : String
deriving DecidableEq, Repr

/-- `turso.Database` as used by db_shell.go: name, hostname, opaque id. -/
structure Database where
  Name : String
  Hostname : String
  ID : String
deriving DecidableEq, Repr

deriving instance DecidableEq for Except

/-! ## Go string helpers (models of the `strings` package functions used) -/

/-- Go `strings.HasSuffix(s, suffix)` on character lists. -/
def goHasSuffixL (s suffix : List Char) : Bool :=
  decide (suffix.length ≤ s.length) && decide (s.drop (s.length - suffix.length) = suffix)

/-- Go `strings.HasSuffix` on strings. -/
def goHasSuffix (s suffix : String) : Bool :=
  goHasSuffixL s.data suffix.data

/-- Does the character list start with the given character? -/
def startsWithC (s : List Char) (c : Char) : Bool :=
  match s with
  | [] => false
  | a :: _ => a = c

/-- Go `strings.HasPrefix` on character lists. -/
def startsWithL (s pre : List Char) : Bool :=
  decide (s.take pre.length = pre)

/-- Index of the first occurrence of `c`, Go `strings.Index` for one byte. -/
def indexOfC (s : List Char) (c : Char) : Option Nat :=
  match s with
  | [] => none
  | a :: rest =>
    if a = c then some 0 else (indexOfC rest c).map (· + 1)

/-- Index of the last occurrence of `c`, Go `strings.LastIndex` for one byte. -/
def lastIndexOfC (s : List Char) (c : Char) : Option Nat :=
  match s with
  | [] => none
  | a :: rest =>
    match lastIndexOfC rest c with
    | some i => some (i + 1)
    | none => if a = c then some 0 else none

/-- Go `strings.Cut(s, sep)` for a one-character separator: the part before
the first occurrence and the part after it (empty when absent). -/
def cutC (s : List Char) (c : Char) : List Char × List Char :=
  match indexOfC s c with
  | some i => (s.take i, s.drop (i + 1))
  | none => (s, [])

/-- Go `strings.Contains(s, string(c))`. -/
def containsC (s : List Char) (c : Char) : Bool :=
  (indexOfC s c).isSome

/-- Index of the first occurrence of the pattern `pat`, Go `strings.Index`. -/
def indexOfSub (s pat : List Char) : Option Nat :=
  match s with
  | [] => if pat = [] then some 0 else none
  | _ :: rest =>
    if startsWithL s pat then some 0 else (indexOfSub rest pat).map (· + 1)

/-- ASCII lower-casing of one character (schemes only contain ASCII). -/
def lowerASCII (c : Char) : Char :=
  if c.toNat ≥ 65 ∧ c.toNat ≤ 90 then Char.ofNat (c.toNat + 32) else c

/-! ## Model of Go `net/url` parsing

Mirrors `net/url.parse(rawURL, viaRequest)` plus the helpers it calls:
`getScheme`, `parseAuthority`, `parseHost`, `unescape`, `shouldEscape`,
`validUserinfo`, `validOptionalPort`. Parse failures become `none`
(the Go error message is never inspected by db_shell.go). -/

/-- The fields of `net/url.URL` that this development needs. -/
structure GoURL where
  scheme : String
  opaqueData : String
  host : String
  path : String
  rawQuery : String
  forceQuery : Bool
  fragment : String
deriving DecidableEq, Repr

/-- Go `stringContainsCTLByte`: any byte below 0x20 or equal to 0x7f. -/
def containsCTL (s : List Char) : Bool :=
  s.any (fun c => decide (c.toNat < 0x20) || decide (c.toNat = 0x7f))

def isASCIIAlpha (c : Char) : Bool :=
  (decide (c.toNat ≥ 97) && decide (c.toNat ≤ 122)) ||
  (decide (c.toNat ≥ 65) && decide (c.toNat ≤ 90))

def isASCIIDigit (c : Char) : Bool :=
  decide (c.toNat ≥ 48) && decide (c.toNat ≤ 57)

def isHexDigit (c : Char) : Bool :=
  isASCIIDigit c ||
  (decide (c.toNat ≥ 97) && decide (c.toNat ≤ 102)) ||
  (decide (c.toNat ≥ 65) && decide (c.toNat ≤ 70))

/-- Numeric value of a hex digit, Go `unhex`. -/
def unhex (c : Char) : Nat :=
  if isASCIIDigit c then c.toNat - 48
  else if decide (c.toNat ≥ 97) && decide (c.toNat ≤ 102) then c.toNat - 97 + 10
  else if decide (c.toNat ≥ 65) && decide (c.toNat ≤ 70) then c.toNat - 65 + 10
  else 0

/-- Escaping modes of `net/url` relevant here. -/
inductive EncMode
  | host | zone | path | userPassword | fragment
deriving DecidableEq

/-- Go `shouldEscape(c, encodeHost)` (shared by host and zone modes):
letters, digits, the host sub-delims plus `:[]<>"`, and the unreserved
marks `-_.~` stay; every other ASCII byte must be escaped. -/
def shouldEscapeHost (n : Nat) : Bool :=
  if (n ≥ 97 ∧ n ≤ 122) ∨ (n ≥ 65 ∧ n ≤ 90) ∨ (n ≥ 48 ∧ n ≤ 57) then false
  else if n ∈ ['!'.toNat, '$'.toNat, '&'.toNat, 0x27, '('.toNat, ')'.toNat,
      '*'.toNat, '+'.toNat, ','.toNat, ';'.toNat, '='.toNat, ':'.toNat,
      '['.toNat, ']'.toNat, '<'.toNat, '>'.toNat, 0x22] then false
  else if n ∈ ['-'.toNat, '_'.toNat, '.'.toNat, '~'.toNat] then false
  else true

/-- Go `unescape(s, mode)` fused validation and decoding: checks every `%`
escape is two hex digits, enforces the host/zone character restrictions,
and decodes `%XX`. Returns `none` on the errors Go reports. -/
def unescapeL (mode : EncMode) : List Char → Option (List Char)
  | [] => some []
  | '%' :: a :: b :: rest =>
    if ¬ (isHexDigit a ∧ isHexDigit b) then none
    else
      let v := unhex a * 16 + unhex b
      if mode = .host ∧ unhex a < 8 ∧ ¬ (a = '2' ∧ b = '5') then none
      else if mode = .zone ∧ ¬ (a = '2' ∧ b = '5') ∧ v ≠ 32 ∧ shouldEscapeHost v then
        none
      else (unescapeL mode rest).map (Char.ofNat v :: ·)
  | '%' :: _ => none
  | c :: rest =>
    if (mode = .host ∨ mode = .zone) ∧ c.toNat < 0x80 ∧ shouldEscapeHost c.toNat then
      none
    else (unescapeL mode rest).map (c :: ·)

/-- Go `validOptionalPort`: empty, or `:` followed by only digits. -/
def validOptionalPort (port : List Char) : Bool :=
  match port with
  | [] => true
  | ':' :: digits => digits.all isASCIIDigit
  | _ => false

/-- Go `validUserinfo`: the characters allowed in the userinfo section. -/
def validUserinfo (s : List Char) : Bool :=
  s.all fun c =>
    isASCIIAlpha c || isASCIIDigit c ||
    decide (c ∈ ['-', '.', '_', ':', '~', '!', '$', '&', '\'',
                 '(', ')', '*', '+', ',', ';', '=', '%', '@'])

/-- Go `parseHost`: bracketed IPv6 literals with optional zone, port
validation, then `unescape` in host mode. Returns the decoded host. -/
def parseHost (host : List Char) : Option (List Char) :=
  if startsWithC host '[' then
    match lastIndexOfC host ']' with
    | none => none
    | some i =>
      let colonPort := host.drop (i + 1)
      if ¬ validOptionalPort colonPort then none
      else
        match indexOfSub (host.take i) ['%', '2', '5'] with
        | some zone =>
          match unescapeL .host (host.take zone), unescapeL .zone ((host.take i).drop zone),
              unescapeL .host (host.drop i) with
          | some h1, some h2, some h3 => some (h1 ++ h2 ++ h3)
          | _, _, _ => none
        | none => unescapeL .host host
  else
    match lastIndexOfC host ':' with
    | some i =>
      if ¬ validOptionalPort (host.drop i) then none else unescapeL .host host
    | none => unescapeL .host host

/-- Go `parseAuthority`: split at the last `@`, parse the host part, then
validate and unescape the userinfo. Only the host is retained. -/
def parseAuthority (authority : List Char) : Option (List Char) :=
  match lastIndexOfC authority '@' with
  | none => parseHost authority
  | some i =>
    match parseHost (authority.drop (i + 1)) with
    | none => none
    | some host =>
      let userinfo := authority.take i
      if ¬ validUserinfo userinfo then none
      else if ¬ containsC userinfo ':' then
        match unescapeL .userPassword userinfo with
        | none => none
        | some _ => some host
      else
        let (user, password) := cutC userinfo ':'
        match unescapeL .userPassword user, unescapeL .userPassword password with
        | some _, some _ => some host
        | _, _ => none

/-- Result of Go `getScheme`: `none` is the "missing protocol scheme"
error; `some none` means no scheme was found (the whole input is the
rest); `some (some i)` is a valid scheme ending at the colon at index `i`. -/
def schemeColon (s : List Char) (i : Nat) : Option (Option Nat) :=
  match s with
  | [] => some none
  | c :: rest =>
    if isASCIIAlpha c then schemeColon rest (i + 1)
    else if isASCIIDigit c ∨ c = '+' ∨ c = '-' ∨ c = '.' then
      if i = 0 then some none else schemeColon rest (i + 1)
    else if c = ':' then
      if i = 0 then none else some (some i)
    else some none

/-- Go `getScheme(rawURL)`: the scheme (possibly empty) and the rest. -/
def getScheme (raw : List Char) : Option (List Char × List Char) :=
  match schemeColon raw 0 with
  | none => none
  | some none => some ([], raw)
  | some (some i) => some (raw.take i, raw.drop (i + 1))

/-- Go `net/url.parse(rawURL, viaRequest)`. Mirrors the control flow of
the Go function; errors become `none`. The `User`, `RawPath` and
`OmitHost` fields are not tracked (unused by db_shell.go). -/
def urlParseCore (raw : List Char) (viaRequest : Bool) : Option GoURL :=
  if containsCTL raw then none
  else if raw = [] ∧ viaRequest then none
  else if raw = ['*'] then
    some ⟨"", "", "", "*", "", false, ""⟩
  else
    match getScheme raw with
    | none => none
    | some (schemeRaw, rest0) =>
      let scheme := String.mk (schemeRaw.map lowerASCII)
      let (rest, rawQuery, forceQuery) :=
        if goHasSuffixL rest0 ['?'] ∧ ¬ containsC rest0.dropLast '?' then
          (rest0.dropLast, ([] : List Char), true)
        else
          let (a, b) := cutC rest0 '?'
          (a, b, false)
      if ¬ startsWithC rest '/' then
        if scheme ≠ "" then
          some ⟨scheme, String.mk rest, "", "", String.mk rawQuery, forceQuery, ""⟩
        else if viaRequest then none
        else if containsC (cutC rest '/').1 ':' then none
        else
          match unescapeL .path rest with
          | none => none
          | some p =>
            some ⟨scheme, "", "", String.mk p, String.mk rawQuery, forceQuery, ""⟩
      else
        if (scheme ≠ "" ∨ (¬ viaRequest ∧ ¬ startsWithL rest ['/', '/', '/'])) ∧
            startsWithL rest ['/', '/'] then
          let afterSlashes := rest.drop 2
          let (authority, rest2) :=
            match indexOfC afterSlashes '/' with
            | some i => (afterSlashes.take i, afterSlashes.drop i)
            | none => (afterSlashes, [])
          match parseAuthority authority with
          | none => none
          | some host =>
            match unescapeL .path rest2 with
            | none => none
            | some p =>
              some ⟨scheme, "", String.mk host, String.mk p,
                    String.mk rawQuery, forceQuery, ""⟩
        else
          match unescapeL .path rest with
          | none => none
          | some p =>
            some ⟨scheme, "", "", String.mk p, String.mk rawQuery, forceQuery, ""⟩

/-- Go `net/url.ParseRequestURI`. -/
def parseRequestURI (raw : String) : Option GoURL :=
  urlParseCore raw.data true

/-- Go `net/url.Parse`: split the fragment off first, parse the rest with
`viaRequest = false`, then validate/unescape the fragment. -/
def urlParse (raw : String) : Option GoURL :=
  let (before, frag) := cutC raw.data '#'
  match urlParseCore before false with
  | none => none
  | some u =>
    if frag = [] then some u
    else
      match unescapeL .fragment frag with
      | none => none
      | some f => some { u with fragment := String.mk f }

/-- Go `net/url.splitHostPort` (used by `URL.Hostname`). -/
def splitHostPortHost (hostPort : List Char) : List Char :=
  let host :=
    match lastIndexOfC hostPort ':' with
    | some i => if validOptionalPort (hostPort.drop i) then hostPort.take i else hostPort
    | none => hostPort
  if startsWithC host '[' ∧ goHasSuffixL host [']'] then
    (host.drop 1).dropLast
  else host

/-- Go `URL.Hostname()`: the host with any port and IPv6 brackets removed. -/
def urlHostname (u : GoURL) : String :=
  String.mk (splitHostPortHost u.host.data)

/-! ## Model of `github.com/xwb1989/sqlparser` statement splitting

`doQueryContext` delegates statement splitting to
`sqlparser.SplitStatementToPieces`, which drives the package's SQL string
tokenizer and cuts the raw text at `;` tokens using the tokenizer's
`Position` counter. The tokenizer is modelled here at character level
over the fixed input `blob`, with the scanner state the value of Go's
`Tokenizer.Position` (number of `next()` calls that moved; the current
lookahead character is the one at index `Position - 1`, `0` is the
pre-read sentinel, and past the end the position freezes at
`length + 1`). Token values are collapsed to the three outcomes the
splitter distinguishes: `;`, end of input, anything else (including
`LEX_ERROR` tokens, which the splitter ignores).

Two consequential details of the library are carried over faithfully:
a terminated `/*! ... */` MySQL-specific comment installs a fresh
sub-tokenizer (`scanMySQLSpecificComment` / `specialComment`) over the
comment's extracted interior, whose tokens — including `;` — are
returned while the outer `Position` stays frozen just past the comment;
and the splitter's end-of-input branch guards the final piece with
`stmtBegin < Position-2`, which drops not only empty but also
one-character trailing segments. -/

/-- Lookahead marker for end of input (Go uses `0x100` over bytes; a code
above every Unicode scalar plays that role over characters). -/
def eofCode : Nat := 0x110000

/-- The tokenizer's `lastChar` as a function of its `Position`. -/
def lookChar (blob : List Char) (s : Nat) : Nat :=
  if s = 0 then 0
  else
    match blob.get? (s - 1) with
    | some c => c.toNat
    | none => eofCode

/-- Go `Tokenizer.next()`: the position advances unless `lastChar` is
already the end marker. -/
def nextPos (blob : List Char) (s : Nat) : Nat :=
  if lookChar blob s = eofCode then s else s + 1

/-- Go slice `blob[a:b]` at character level. -/
def sliceL (blob : List Char) (a b : Nat) : List Char :=
  (blob.take b).drop a

/-- Tokenizer `isLetter`: ASCII letters, `_` and `@`. -/
def isLetterT (c : Nat) : Bool :=
  (decide (97 ≤ c) && decide (c ≤ 122)) || (decide (65 ≤ c) && decide (c ≤ 90)) ||
  c == 95 || c == 64

def isDigitT (c : Nat) : Bool :=
  decide (48 ≤ c) && decide (c ≤ 57)

/-- Tokenizer `digitVal`: value of a digit in bases up to 36, 16 otherwise. -/
def digitVal (c : Nat) : Nat :=
  if 48 ≤ c ∧ c ≤ 57 then c - 48
  else if 97 ≤ c ∧ c ≤ 122 then c - 97 + 10
  else if 65 ≤ c ∧ c ≤ 90 then c - 65 + 10
  else 16

/-- Consume characters while the predicate holds on the lookahead. -/
def consumeWhile (blob : List Char) (p : Nat → Bool) : Nat → Nat → Nat
  | 0, s => s
  | fuel + 1, s =>
    if p (lookChar blob s) then consumeWhile blob p fuel (nextPos blob s) else s

/-- `skipBlank`: spaces, newlines, carriage returns and tabs. -/
def isBlankT (c : Nat) : Bool :=
  c == 32 || c == 10 || c == 13 || c == 9

/-- `scanMantissa(base)`: consume digits of the base. -/
def scanMantissa (blob : List Char) (base : Nat) (fuel s : Nat) : Nat :=
  consumeWhile blob (fun c => decide (digitVal c < base)) fuel s

/-- `scanHex` / `scanBitLiteral` after the opening quote: digits of the
base, then the closing quote when present (`LEX_ERROR` otherwise). -/
def scanHexLit (blob : List Char) (base : Nat) (fuel s : Nat) : Nat :=
  let s1 := scanMantissa blob base fuel s
  if lookChar blob s1 = 39 then nextPos blob s1 else s1

/-- `scanBindVar` starting at the `:`. -/
def scanBindVarPos (blob : List Char) (fuel s : Nat) : Nat :=
  let s1 := nextPos blob s
  let s2 := if lookChar blob s1 = 58 then nextPos blob s1 else s1
  if ¬ isLetterT (lookChar blob s2) then s2
  else consumeWhile blob (fun c => isLetterT c || isDigitT c || c == 46) fuel s2

/-- `scanNumber`: integral, hex (`0x`), decimal point and exponent forms. -/
def scanNumber (blob : List Char) (fuel s : Nat) (seenDecimalPoint : Bool) : Nat :=
  let expPart := fun (s3 : Nat) =>
    if lookChar blob s3 = 101 ∨ lookChar blob s3 = 69 then
      let s4 := nextPos blob s3
      let s5 :=
        if lookChar blob s4 = 43 ∨ lookChar blob s4 = 45 then nextPos blob s4 else s4
      scanMantissa blob 10 fuel s5
    else s3
  let rest := fun (s1 : Nat) =>
    let s2 := scanMantissa blob 10 fuel s1
    let s3 :=
      if lookChar blob s2 = 46 then scanMantissa blob 10 fuel (nextPos blob s2) else s2
    expPart s3
  if seenDecimalPoint then expPart (scanMantissa blob 10 fuel s)
  else if lookChar blob s = 48 then
    let s1 := nextPos blob s
    if lookChar blob s1 = 120 ∨ lookChar blob s1 = 88 then
      scanMantissa blob 16 fuel (nextPos blob s1)
    else rest s1
  else rest s

/-- `scanString(delim)` after the opening quote: doubled delimiters and
backslash escapes stay inside the literal; end of input is `LEX_ERROR`. -/
def scanStringLoop (blob : List Char) (delim : Nat) : Nat → Nat → Nat
  | 0, s => s
  | fuel + 1, s =>
    let c := lookChar blob s
    let s1 := nextPos blob s
    if c = delim then
      if lookChar blob s1 = delim then scanStringLoop blob delim fuel (nextPos blob s1)
      else s1
    else if c = 92 then
      if lookChar blob s1 = eofCode then s1
      else scanStringLoop blob delim fuel (nextPos blob s1)
    else if c = eofCode then s1
    else scanStringLoop blob delim fuel s1

/-- `scanLiteralIdentifier` after the opening backquote. -/
def scanLiteralIdLoop (blob : List Char) : Nat → Nat → Bool → Nat
  | 0, s, _ => s
  | fuel + 1, s, backTickSeen =>
    if backTickSeen then
      if lookChar blob s ≠ 96 then s
      else scanLiteralIdLoop blob fuel (nextPos blob s) false
    else
      let c := lookChar blob s
      if c = 96 then scanLiteralIdLoop blob fuel (nextPos blob s) true
      else if c = eofCode then s
      else scanLiteralIdLoop blob fuel (nextPos blob s) false

/-- `scanCommentType1`: to the end of the line (the newline included). -/
def scanLineComment (blob : List Char) : Nat → Nat → Nat
  | 0, s => s
  | fuel + 1, s =>
    let c := lookChar blob s
    if c = eofCode then s
    else if c = 10 then nextPos blob s
    else scanLineComment blob fuel (nextPos blob s)

/-- The comment loop shared by `scanCommentType2` and
`scanMySQLSpecificComment`: consume up to and including `*/`, flagging
whether the terminator was found (end of input inside the comment is
`LEX_ERROR`). -/
def scanBlockCommentT (blob : List Char) : Nat → Nat → Bool × Nat
  | 0, s => (false, s)
  | fuel + 1, s =>
    let c := lookChar blob s
    if c = 42 then
      let s1 := nextPos blob s
      if lookChar blob s1 = 47 then (true, nextPos blob s1)
      else scanBlockCommentT blob fuel s1
    else if c = eofCode then (false, s)
    else scanBlockCommentT blob fuel (nextPos blob s)

/-- Go `unicode.IsSpace` on the characters a special comment's trimming
can meet (ASCII whitespace plus U+0085 and U+00A0). -/
def isSpaceGo (c : Char) : Bool :=
  c == ' ' || c == '\t' || c == '\n' || c.toNat == 11 || c.toNat == 12 ||
  c == '\r' || c.toNat == 0x85 || c.toNat == 0xA0

/-- Go `strings.TrimFunc(s, unicode.IsSpace)`. -/
def trimSpaceGo (l : List Char) : List Char :=
  ((l.dropWhile isSpaceGo).reverse.dropWhile isSpaceGo).reverse

/-- `sqlparser.ExtractMysqlComment` applied to the interior of a
`/*! ... */` comment (the text between the `!` and the closing `*/`):
a leading five-digit version number (present exactly when the interior
has at least six characters and its first five are digits) is stripped,
and the remainder is trimmed of surrounding whitespace. -/
def extractMysqlCommentSQL (interior : List Char) : List Char :=
  let endOfVersionIndex :=
    if 6 ≤ interior.length ∧ (interior.take 5).all isASCIIDigit then 5 else 0
  trimSpaceGo (interior.drop endOfVersionIndex)

/-- The three token outcomes `SplitStatementToPieces` distinguishes. -/
inductive STok
  | semi | eofTok | other
deriving DecidableEq

/-- Outcome of scanning one token from a single character stream: an
ordinary token with the new position, or a terminated `/*! ... */`
special comment carrying the extracted inner SQL for re-tokenization. -/
inductive ScanOut
  | tok (t : STok) (s : Nat)
  | special (inner : List Char) (s : Nat)

/-- The body of `Tokenizer.Scan` over one character stream: the token
outcome and the new position. Follows the branch structure of the Go
scanner; every `LEX_ERROR` and ordinary token collapses to `.other`. A
terminated `/*!` comment becomes `.special` (Go's
`scanMySQLSpecificComment`, which installs the sub-tokenizer handled in
`scanGo` below); an unterminated one is its `LEX_ERROR`. -/
def scanBody (blob : List Char) (s0 : Nat) : ScanOut :=
  let fuel := blob.length + 4
  let sA := if lookChar blob s0 = 0 then nextPos blob s0 else s0
  let s := consumeWhile blob isBlankT fuel sA
  let c := lookChar blob s
  if isLetterT c then
    let s1 := nextPos blob s
    if (c = 88 ∨ c = 120) ∧ lookChar blob s1 = 39 then
      .tok .other (scanHexLit blob 16 fuel (nextPos blob s1))
    else if (c = 66 ∨ c = 98) ∧ lookChar blob s1 = 39 then
      .tok .other (scanHexLit blob 2 fuel (nextPos blob s1))
    else
      let isDbSys := c = 64 ∧ lookChar blob s1 = 64
      .tok .other (consumeWhile blob
        (fun d => isLetterT d || isDigitT d ||
          (decide isDbSys && (d == 46 || d == 39 || d == 34 || d == 96))) fuel s1)
  else if isDigitT c then
    .tok .other (scanNumber blob fuel s false)
  else if c = 58 then
    .tok .other (scanBindVarPos blob fuel s)
  else
    let s1 := nextPos blob s
    if c = eofCode then .tok .eofTok s1
    else if c = 59 then .tok .semi s1
    else if c = 61 ∨ c = 44 ∨ c = 40 ∨ c = 41 ∨ c = 43 ∨ c = 42 ∨ c = 37 ∨
        c = 94 ∨ c = 126 then .tok .other s1
    else if c = 38 then
      .tok .other (if lookChar blob s1 = 38 then nextPos blob s1 else s1)
    else if c = 124 then
      .tok .other (if lookChar blob s1 = 124 then nextPos blob s1 else s1)
    else if c = 63 then .tok .other s1
    else if c = 46 then
      if isDigitT (lookChar blob s1) then .tok .other (scanNumber blob fuel s1 true)
      else .tok .other s1
    else if c = 47 then
      if lookChar blob s1 = 47 then
        .tok .other (scanLineComment blob fuel (nextPos blob s1))
      else if lookChar blob s1 = 42 then
        let s2 := nextPos blob s1
        if lookChar blob s2 = 33 then
          let s3 := nextPos blob s2
          match scanBlockCommentT blob fuel s3 with
          | (false, sE) => .tok .other sE
          | (true, sE) =>
            .special (extractMysqlCommentSQL (sliceL blob (s3 - 1) (sE - 3))) sE
        else .tok .other (scanBlockCommentT blob fuel s2).2
      else .tok .other s1
    else if c = 35 then .tok .other (scanLineComment blob fuel s1)
    else if c = 45 then
      if lookChar blob s1 = 45 then
        .tok .other (scanLineComment blob fuel (nextPos blob s1))
      else if lookChar blob s1 = 62 then
        let s2 := nextPos blob s1
        .tok .other (if lookChar blob s2 = 62 then nextPos blob s2 else s2)
      else .tok .other s1
    else if c = 60 then
      if lookChar blob s1 = 62 ∨ lookChar blob s1 = 60 then .tok .other (nextPos blob s1)
      else if lookChar blob s1 = 61 then
        let s2 := nextPos blob s1
        .tok .other (if lookChar blob s2 = 62 then nextPos blob s2 else s2)
      else .tok .other s1
    else if c = 62 then
      if lookChar blob s1 = 61 ∨ lookChar blob s1 = 62 then .tok .other (nextPos blob s1)
      else .tok .other s1
    else if c = 33 then
      .tok .other (if lookChar blob s1 = 61 then nextPos blob s1 else s1)
    else if c = 39 ∨ c = 34 then
      .tok .other (scanStringLoop blob c fuel s1)
    else if c = 96 then
      .tok .other (scanLiteralIdLoop blob fuel s1 false)
    else .tok .other s1

/-- The state of a `Tokenizer`: its `Position` and, when a `/*! ... */`
comment is being re-scanned, the `specialComment` sub-tokenizer (its
input and its own state, nested like the Go struct's pointer). -/
inductive TokState where
  | mk (pos : Nat) (special : Option (List Char × TokState))

/-- The `Position` field of a tokenizer state. -/
def TokState.pos : TokState → Nat
  | .mk p _ => p

/-- One call of `Tokenizer.Scan` with the special-comment protocol: while
`specialComment` is installed its tokens are returned with the outer
`Position` frozen; when it is exhausted it is cleared and scanning
resumes on the outer stream; scanning a terminated `/*!` comment
installs a fresh sub-tokenizer over the extracted inner SQL and scans
again (Go's `return tkn.Scan()`). The fuel bounds the install/clear
chain and the nesting depth; it never runs out under the budgets used
below because every installed comment consumes input. -/
def scanGo : Nat → List Char → TokState → STok × TokState
  | 0, _, st => (.eofTok, st)
  | fuel + 1, blob, .mk pos (some (sb, sst)) =>
    match scanGo fuel sb sst with
    | (.eofTok, _) => scanGo fuel blob (.mk pos none)
    | (t, sst') => (t, .mk pos (some (sb, sst')))
  | fuel + 1, blob, .mk pos none =>
    match scanBody blob pos with
    | .tok t s => (t, .mk s none)
    | .special inner s => scanGo fuel blob (.mk s (some (inner, .mk 0 none)))

/-- The loop of `SplitStatementToPieces`: on a `;` token the piece
`blob[stmtBegin : Position-2]` is appended unconditionally (`Position`
being the outer tokenizer's, frozen past the comment when the `;` came
from a special sub-tokenizer) and `stmtBegin` becomes `Position-1`; at
end of input, with `blobTail := Position-2`, the final piece
`blob[stmtBegin : blobTail+1]` is appended only under the guard
`stmtBegin < blobTail`, which drops empty and one-character trailing
segments alike. -/
def splitLoop (blob : List Char) : Nat → TokState → Nat → List (List Char) →
    List (List Char)
  | 0, _, _, acc => acc.reverse
  | fuel + 1, st, stmtBegin, acc =>
    match scanGo (blob.length + 8) blob st with
    | (.semi, st1) =>
      splitLoop blob fuel st1 (st1.pos - 1) (sliceL blob stmtBegin (st1.pos - 2) :: acc)
    | (.eofTok, st1) =>
      let blobTail := st1.pos - 2
      (if stmtBegin < blobTail then sliceL blob stmtBegin (blobTail + 1) :: acc
       else acc).reverse
    | (.other, st1) => splitLoop blob fuel st1 stmtBegin acc

/-- The pieces produced by `sqlparser.SplitStatementToPieces`. -/
def splitIntoPieces (blob : String) : List String :=
  (splitLoop blob.data (blob.data.length * 2 + 16) (.mk 0 none) 0 []).map String.mk

/-- `sqlparser.SplitStatementToPieces(blob)`. The returned error is the
tokenizer's `LastError`, which tokenizing a string can never set: it is
only assigned by the yacc `Error` callback (never invoked here) or by
read failures of an input stream (a string tokenizer has none). -/
def SplitStatementToPieces (blob : String) : Except GoError (List String) :=
  let lastError : Option GoError := none
  match lastError with
  | some e => .error e
  | none => .ok (splitIntoPieces blob)

/-! ## Model of `encoding/json.Marshal` for `QueryRequest`

`QueryRequest` is `struct { Statements []string `json:"statements"` }`;
`json.Marshal` (HTML escaping on) produces
`{"statements":["...","..."]}` with the statements in slice order. The
slice built by the splitter is non-nil, so an empty batch encodes as
`[]`, never `null`, and marshalling never fails. -/

def jsonHexDigitChar (n : Nat) : Char :=
  (("0123456789abcdef".data).getD n '0')

/-- `\uXXXX` escape for a code point (only ever used below 0x3000). -/
def jsonU4 (n : Nat) : List Char :=
  ['\\', 'u', jsonHexDigitChar (n / 4096), jsonHexDigitChar (n / 256 % 16),
   jsonHexDigitChar (n / 16 % 16), jsonHexDigitChar (n % 16)]

/-- Per-character escaping of Go's JSON string encoder with the default
HTML escaping: `"` and `\` get a backslash, newline/carriage-return/tab
their short forms, other control characters plus `<`, `>`, `&` become
`\u00XX`, U+2028/U+2029 become ` `/` `. -/
def jsonEscapeChar (c : Char) : List Char :=
  if c = '"' then ['\\', '"']
  else if c = '\\' then ['\\', '\\']
  else if c = '\n' then ['\\', 'n']
  else if c = '\r' then ['\\', 'r']
  else if c = '\t' then ['\\', 't']
  else if c.toNat < 0x20 ∨ c = '<' ∨ c = '>' ∨ c = '&' then jsonU4 c.toNat
  else if c.toNat = 0x2028 ∨ c.toNat = 0x2029 then jsonU4 c.toNat
  else [c]

/-- JSON encoding of one Go string. -/
def goJSONString (s : String) : String :=
  "\"" ++ String.mk (s.data.flatMap jsonEscapeChar) ++ "\""

/-- JSON encoding of a non-nil Go `[]string`. -/
def goJSONStringArray (l : List String) : String :=
  "[" ++ String.intercalate "," (l.map goJSONString) ++ "]"

/-- `json.Marshal(QueryRequest{Statements: stmts})`. -/
def goJSONMarshalQueryRequest (stmts : List String) : String :=
  "\x7b\"statements\":" ++ goJSONStringArray stmts ++ "\x7d"

/-! ## Model of the query dispatcher (`doQueryContext`) -/

/-- The observable parts of the single `http.Request` handed to
`http.DefaultClient.Do`. -/
structure HTTPRequest where
  method : String
  url : String
  body : String
  headers : List (String × String)
deriving DecidableEq, Repr

/-- `http.NewRequestWithContext(ctx, "POST", url, body)`: the method is a
fixed valid one and the context is non-nil, so the only failure is
`net/url.Parse` rejecting the URL. -/
def newRequestWithContext (method url body : String) : Option HTTPRequest :=
  match urlParse url with
  | none => none
  | some _ => some ⟨method, url, body, []⟩

/-- `db_shell.go` `doQueryContext(ctx, url, token, stmt)`: split the text,
marshal the batch, build one POST request, attach the bearer header only
for a non-empty token, and hand the single request to the HTTP client.
The value returned is that one request (the response is the remote
collaborator's business). -/
def doQueryContext (url token stmt : String) : Except GoError HTTPRequest :=
  match SplitStatementToPieces stmt with
  | .error e => .error e
  | .ok stmts =>
    let body := goJSONMarshalQueryRequest stmts
    match newRequestWithContext "POST" url body with
    | none => .error ⟨"net/url: request construction failed"⟩
    | some req =>
      let req :=
        if token = "" then req
        else { req with headers := req.headers ++ [("Authorization", "Bearer " ++ token)] }
      .ok req

/-- The requests `doQueryContext` sends: one on success, none on error. -/
def requestsSentBy (r : Except GoError HTTPRequest) : List HTTPRequest :=
  match r with
  | .ok req => [req]
  | .error _ => []

/-! ## The reference resolver (`db_shell.go`) -/

/-- The turso API client as the resolver sees it: the directory listing
and the credential endpoint, both external collaborators. -/
structure TursoClient where
  listResult : Except GoError (List Database)
  tokenResult : String → Except GoError String

/-- `isURL(s)`: `url.ParseRequestURI(s)` succeeded. -/
def isURL (s : String) : Bool :=
  (parseRequestURI s).isSome

/-- The `for _, db := range dbs` loop of `databaseFromURL`: first entry
whose `Hostname` is a suffix of the URL's host wins. -/
def firstSuffixMatch (hostname : String) : List Database → Option Database
  | [] => none
  | db :: rest =>
    if goHasSuffix hostname db.Hostname then some db else firstSuffixMatch hostname rest

/-- `databaseFromURL(dbURL, client)`: re-parse the URL, list the known
databases, scan for a hostname-suffix match; no match is `(nil, nil)`. -/
def databaseFromURL (dbURL : String) (client : TursoClient) :
    Except GoError (Option Database) :=
  match parseRequestURI dbURL with
  | none => .error ⟨"invalid URI for request"⟩
  | some parsed =>
    match client.listResult with
    | .error e => .error e
    | .ok dbs => .ok (firstSuffixMatch (urlHostname parsed) dbs)

/-- Modelled from the spec: `getDatabase` (a repository function outside
the reviewed sources) looks a logical name up "by exact name match in
knownDatabases; not found → UnresolvedDatabaseError". -/
def getDatabase (client : TursoClient) (name : String) : Except GoError Database :=
  match client.listResult with
  | .error e => .error e
  | .ok dbs =>
    match dbs.find? (fun db => db.Name == name) with
    | some db => .ok db
    | none => .error ⟨"could not find database " ++ name⟩

/-- `databaseFromNameOrURL(str, client)`. -/
def databaseFromNameOrURL (str : String) (client : TursoClient) :
    Except GoError (Option Database) :=
  if isURL str then databaseFromURL str client
  else
    match getDatabase client str with
    | .error e => .error e
    | .ok db => .ok (some db)

/-! ## Credential broker and endpoint assembly -/

/-- Observable actions of one shell-command invocation. -/
inductive Event
  | spinnerStart
  | spinnerStopCall
  | tokenRequest (name : String)
  | runLine (dbPath sql : String)
  | runInteractive (dbPath : String)
deriving DecidableEq, Repr

/-- `tokenFromDb(db, client)`: a nil database yields an empty token with
no error and no request; otherwise `client.Databases.Token(name, "1d",
false)` is called (one credential request, spec-modelled collaborator). -/
def tokenFromDb (db : Option Database) (client : TursoClient) :
    Except GoError String × List Event :=
  match db with
  | none => (.ok "", [])
  | some d =>
    match client.tokenResult d.Name with
    | .ok t => (.ok t, [.tokenRequest d.Name])
    | .error e => (.error e, [.tokenRequest d.Name])

/-- `addTokenAsQueryParameter(dbUrl, token)`. -/
def addTokenAsQueryParameter (dbUrl token : String) : String :=
  dbUrl ++ "?jwt=" ++ token

/-- Modelled from the spec: `getDatabaseHttpUrl` (a repository function
outside the reviewed sources) derives the HTTP endpoint of a known
database from its hostname — scenario: hostname `my-db-org.example.io`
resolves to endpoint `https://my-db-org.example.io`. -/
def getDatabaseHttpUrl (db : Database) : String :=
  "https://" ++ db.Hostname

/-! ## Session controller (`shellCmd.RunE`) -/

/-- Modelled from the spec: the REPL front end (`libsql-shell-go`,
an external collaborator) "accepts ... a zero-argument callback invoked
exactly once on first successful connectivity; exposes two entry points —
run a single supplied line, or run an interactive loop until quit".
Connectivity success and the session outcome are its free behavior. -/
structure ShellBehavior where
  connectOk : Bool
  connectErr : GoError
  runResult : Except GoError Unit

/-- Everything outside `shellCmd.RunE` that its run interacts with. -/
structure ShellEnv where
  client : TursoClient
  clientErr : Option GoError
  settingsErr : Option GoError
  shellB : ShellBehavior

/-- `shell.RunShellLine(config, line)`, spec-modelled: on first successful
connectivity the `AfterDbConnectionCallback` fires once — its body in
`db_shell.go` is `spinner.Stop()` — then the single line runs. -/
def runShellLineM (b : ShellBehavior) (dbPath sql : String) :
    Except GoError Unit × List Event :=
  if b.connectOk then (b.runResult, [.spinnerStopCall, .runLine dbPath sql])
  else (.error b.connectErr, [])

/-- `shell.RunShell(config)`, spec-modelled like `runShellLineM` with the
interactive loop in place of the single line. -/
def runShellM (b : ShellBehavior) (dbPath : String) :
    Except GoError Unit × List Event :=
  if b.connectOk then (b.runResult, [.spinnerStopCall, .runInteractive dbPath])
  else (.error b.connectErr, [])

/-- `shellCmd.RunE` for `args = nameOrUrl :: (sqlArg as optional second
argument)` (cobra enforces one or two positionals). Returns the command
outcome and the event trace. The spinner is created stopped; in
interactive mode (one argument) it is started at once and a deferred
`spinner.Stop()` runs at every later exit. -/
def shellCmdRun (nameOrUrl : String) (sqlArg : Option String) (env : ShellEnv) :
    Except GoError Unit × List Event :=
  if nameOrUrl = "" then (.error ⟨"please specify a database name"⟩, [])
  else
    let interactive := sqlArg.isNone
    let startEvts : List Event := if interactive then [.spinnerStart] else []
    let deferEvts : List Event := if interactive then [.spinnerStopCall] else []
    match env.clientErr with
    | some e => (.error ⟨"could not create turso client: " ++ e.msg⟩, startEvts ++ deferEvts)
    | none =>
      match env.settingsErr with
      | some e => (.error ⟨"could not read settings: " ++ e.msg⟩, startEvts ++ deferEvts)
      | none =>
        match databaseFromNameOrURL nameOrUrl env.client with
        | .error e => (.error e, startEvts ++ deferEvts)
        | .ok db =>
          match tokenFromDb db env.client with
          | (.error e, evs) => (.error e, startEvts ++ evs ++ deferEvts)
          | (.ok token, evs) =>
            let dbUrl :=
              match db with
              | none => nameOrUrl
              | some d => addTokenAsQueryParameter (getDatabaseHttpUrl d) token
            match sqlArg with
            | some sql =>
              if sql = "" then
                (.error ⟨"no SQL command to execute"⟩, startEvts ++ evs)
              else
                let (res, sevs) := runShellLineM env.shellB dbUrl sql
                (res, startEvts ++ evs ++ sevs)
            | none =>
              let (res, sevs) := runShellM env.shellB dbUrl
              (res, startEvts ++ evs ++ sevs ++ deferEvts)

/-! ## Trace observations -/

/-- How many times `spinner.Stop()` is called in a trace. -/
def stopCalls : List Event → Nat
  | [] => 0
  | .spinnerStopCall :: tr => stopCalls tr + 1
  | _ :: tr => stopCalls tr

/-- How many `Stop` calls actually transition the spinner from running to
stopped. Modelled from the spec: the progress indicator "holds no shared
mutable state beyond its own running flag" and "only ever transitions
once (stop)" — `Start` sets the flag, `Stop` clears it, a `Stop` on a
cleared flag is a no-op. `StoppedSpinner` starts with the flag clear. -/
def stopTransitions : List Event → Bool → Nat
  | [], _ => 0
  | .spinnerStart :: tr, _ => stopTransitions tr true
  | .spinnerStopCall :: tr, running =>
    (if running then 1 else 0) + stopTransitions tr false
  | _ :: tr, running => stopTransitions tr running

/-- How many credential requests a trace contains. -/
def tokenRequests : List Event → Nat
  | [] => 0
  | .tokenRequest _ :: tr => tokenRequests tr + 1
  | _ :: tr => tokenRequests tr

/-- The endpoint strings handed to the REPL front end in a trace. -/
def runPaths : List Event → List String
  | [] => []
  | .runLine dbPath _ :: tr => dbPath :: runPaths tr
  | .runInteractive dbPath :: tr => dbPath :: runPaths tr
  | _ :: tr => runPaths tr

/-! ## Shared sample data for witnesses -/

/-- A sample known database used by several witnesses. -/
def sampleDb : Database := ⟨"my-db", "my-db-org.example.io", "id1"⟩

/-- A sample client whose directory contains `sampleDb` and whose
credential endpoint issues the token `tok`. -/
def sampleClient : TursoClient := ⟨.ok [sampleDb], fun _ => .ok "tok"⟩

/-- A sample healthy environment around `sampleClient`. -/
def sampleEnv : ShellEnv :=
  ⟨sampleClient, none, none, ⟨true, ⟨"connection failed"⟩, .ok ()⟩⟩

/-! ## Helper lemmas -/

/-- The scan loop of `databaseFromURL` is first-match search. -/
theorem firstSuffixMatch_eq_find (h : String) (l : List Database) :
    firstSuffixMatch h l = l.find? (fun db => goHasSuffix h db.Hostname) := by
  induction l with
  | nil => rfl
  | cons d t ih =>
    by_cases hd : goHasSuffix h d.Hostname
    · simp [firstSuffixMatch, List.find?_cons, hd]
    · simp [firstSuffixMatch, List.find?_cons, hd, ih]

/-- The empty string is a suffix of every string (Go `strings.HasSuffix`). -/
theorem goHasSuffix_empty (s : String) : goHasSuffix s "" = true := by
  simp [goHasSuffix, goHasSuffixL, List.drop_length]

/-- Credential requests made by `tokenFromDb` never reach the trace
observations for shell runs below. -/
theorem runPaths_tokenFromDb (db : Option Database) (client : TursoClient) :
    runPaths (tokenFromDb db client).2 = [] := by
  cases db with
  | none => rfl
  | some d =>
    cases h : client.tokenResult d.Name <;> simp [tokenFromDb, h, runPaths]

/-- `runPaths` distributes over concatenation. -/
theorem runPaths_append (a b : List Event) :
    runPaths (a ++ b) = runPaths a ++ runPaths b := by
  induction a with
  | nil => rfl
  | cons e t ih => cases e <;> simp [runPaths, ih]

/-! ## Claims C2, C3, C10: the reference resolver -/

/-- C2 counterexample: the claim "resolution treats it as a URL exactly
when it parses as an absolute URL with both scheme and host" is false —
the rooted path `/foo` has neither a scheme nor a host, yet
`url.ParseRequestURI` accepts it, so `isURL` is true and resolution
takes the URL branch. -/
theorem c2_counterexample :
    isURL "/foo" = true ∧
    (parseRequestURI "/foo").map (fun u => (u.scheme, u.host)) = some ("", "") :=
  ⟨by decide, by decide⟩

/-- C2 (amended): resolution treats a reference as a URL exactly when
`url.ParseRequestURI` accepts it (an absolute URI — host not required —
or a rooted path); whenever that parse fails, resolution is an exact-name
lookup in the known-database listing only — never suffix matching — and
an unmatched bare name yields the unresolved-database error. -/
theorem c2_name_resolution (ref : String) (client : TursoClient)
    (h : isURL ref = false) :
    databaseFromNameOrURL ref client =
      match client.listResult with
      | .error e => .error e
      | .ok dbs =>
        match dbs.find? (fun db => db.Name == ref) with
        | some db => .ok (some db)
        | none => .error ⟨"could not find database " ++ ref⟩ := by
  unfold databaseFromNameOrURL getDatabase
  rw [h]
  simp only [Bool.false_eq_true, if_false]
  cases hl : client.listResult with
  | error e => simp
  | ok dbs =>
    cases hf : dbs.find? (fun db => db.Name == ref) with
    | none => simp [hf]
    | some db => simp [hf]

/-- C2 witness: `my-db` fails URL parsing and resolves by exact name. -/
theorem c2_name_resolution_witness :
    isURL "my-db" = false ∧
    databaseFromNameOrURL "my-db" sampleClient = .ok (some sampleDb) :=
  ⟨by decide, (c2_name_resolution "my-db" sampleClient (by decide)).trans (by decide)⟩

/-- C3: for a reference that parses as a URL and a successful directory
listing, resolution returns the first database in listing order whose
`Hostname` is a suffix of the URL's host component; with no such entry it
returns no database and no error (a raw external endpoint). -/
theorem c3_url_suffix_resolution (ref : String) (client : TursoClient)
    (u : GoURL) (dbs : List Database)
    (hp : parseRequestURI ref = some u) (hl : client.listResult = .ok dbs) :
    databaseFromURL ref client =
      .ok (dbs.find? (fun db => goHasSuffix (urlHostname u) db.Hostname)) := by
  unfold databaseFromURL
  rw [hp, hl]
  simp [firstSuffixMatch_eq_find]

/-- C3 witness: the spec's scenario — a replica URL suffix-matches the
known database's hostname and returns that database's metadata. -/
theorem c3_url_suffix_resolution_witness :
    parseRequestURI "libsql://e784400f26d083-my-db-replica.example.io" =
      some ⟨"libsql", "", "e784400f26d083-my-db-replica.example.io", "", "", false, ""⟩ ∧
    databaseFromURL "libsql://e784400f26d083-my-db-replica.example.io"
        ⟨.ok [⟨"my-db", "my-db-replica.example.io", "id1"⟩], fun _ => .ok "tok"⟩ =
      .ok (some ⟨"my-db", "my-db-replica.example.io", "id1"⟩) :=
  ⟨by decide,
   (c3_url_suffix_resolution _ _
      ⟨"libsql", "", "e784400f26d083-my-db-replica.example.io", "", "", false, ""⟩
      [⟨"my-db", "my-db-replica.example.io", "id1"⟩] (by decide) rfl).trans (by decide)⟩

/-- C10: a known database whose `Hostname` is the empty string matches
every URL reference (the empty string is a suffix of every host), so when
such an entry heads the directory listing every URL reference resolves to
it, whatever the URL's actual host. -/
theorem c10_empty_hostname_matches (ref : String) (client : TursoClient)
    (d0 : Database) (rest : List Database)
    (hu : isURL ref = true) (hl : client.listResult = .ok (d0 :: rest))
    (hh : d0.Hostname = "") :
    databaseFromURL ref client = .ok (some d0) := by
  unfold isURL at hu
  cases hp : parseRequestURI ref with
  | none => rw [hp] at hu; simp at hu
  | some u =>
    unfold databaseFromURL
    rw [hp, hl]
    simp [firstSuffixMatch, hh, goHasSuffix_empty]

/-- C10 witness: an empty-hostname entry ahead of the real one captures a
URL that names the second entry's host. -/
theorem c10_empty_hostname_matches_witness :
    isURL "libsql://my-db-org.example.io" = true ∧
    databaseFromURL "libsql://my-db-org.example.io"
        ⟨.ok [⟨"catch-all", "", "id0"⟩, ⟨"my-db", "my-db-org.example.io", "id1"⟩],
         fun _ => .ok "tok"⟩ =
      .ok (some ⟨"catch-all", "", "id0"⟩) :=
  ⟨by decide,
   c10_empty_hostname_matches _ _ ⟨"catch-all", "", "id0"⟩
     [⟨"my-db", "my-db-org.example.io", "id1"⟩] (by decide) rfl rfl⟩

/-! ## Claims C1, C6, C7, C9: the session controller -/

/-- The credential step emits no event, or exactly the one request. -/
theorem tokenFromDb_events (db : Option Database) (client : TursoClient) :
    (tokenFromDb db client).2 = [] ∨
    ∃ n, (tokenFromDb db client).2 = [Event.tokenRequest n] := by
  cases db with
  | none => exact Or.inl rfl
  | some d =>
    refine Or.inr ⟨d.Name, ?_⟩
    cases h : client.tokenResult d.Name <;> simp [tokenFromDb, h]

/-- C1 counterexample: in a successful interactive invocation the stop
signal `spinner.Stop()` fires twice — once from the connection callback
and once from the deferred stop at exit — not exactly once. -/
theorem c1_counterexample :
    stopCalls (shellCmdRun "my-db" none sampleEnv).2 = 2 ∧
    stopCalls (shellCmdRun "my-db" none sampleEnv).2 ≠ 1 :=
  ⟨by decide, by decide⟩

/-- C1 (amended): on every invocation that reaches a successful
connection, the indicator's running→stopped transition happens exactly
once in interactive mode (at the connection callback; the deferred
`Stop` at exit is a no-op on the already-cleared running flag) and never
in single-shot mode (the spinner is never started there); counted as
calls, `Stop` fires twice in interactive mode and once in single-shot
mode. -/
theorem c1_stop_transitions (nameOrUrl : String) (env : ShellEnv)
    (db : Option Database) (token : String)
    (hname : nameOrUrl ≠ "")
    (hclient : env.clientErr = none) (hset : env.settingsErr = none)
    (hres : databaseFromNameOrURL nameOrUrl env.client = .ok db)
    (htok : (tokenFromDb db env.client).1 = .ok token)
    (hconn : env.shellB.connectOk = true) :
    (stopCalls (shellCmdRun nameOrUrl none env).2 = 2 ∧
     stopTransitions (shellCmdRun nameOrUrl none env).2 false = 1) ∧
    ∀ sql : String, sql ≠ "" →
      stopCalls (shellCmdRun nameOrUrl (some sql) env).2 = 1 ∧
      stopTransitions (shellCmdRun nameOrUrl (some sql) env).2 false = 0 := by
  have hevs := tokenFromDb_events db env.client
  rcases hpair : tokenFromDb db env.client with ⟨res, evs⟩
  rw [hpair] at htok hevs
  dsimp only at htok hevs
  subst htok
  constructor
  · rcases hevs with h | ⟨n, h⟩ <;> subst h <;>
      simp [shellCmdRun, if_neg hname, hclient, hset, hres, hpair, hconn,
        runShellM, stopCalls, stopTransitions]
  · intro sql hsql
    rcases hevs with h | ⟨n, h⟩ <;> subst h <;>
      simp [shellCmdRun, if_neg hname, hclient, hset, hres, hpair, hconn,
        if_neg hsql, runShellLineM, stopCalls, stopTransitions]

/-- C1 witness: the amended statement at a healthy concrete environment. -/
theorem c1_stop_transitions_witness :
    databaseFromNameOrURL "my-db" sampleEnv.client = .ok (some sampleDb) ∧
    (tokenFromDb (some sampleDb) sampleEnv.client).1 = .ok "tok" ∧
    stopCalls (shellCmdRun "my-db" none sampleEnv).2 = 2 ∧
    stopTransitions (shellCmdRun "my-db" none sampleEnv).2 false = 1 ∧
    stopCalls (shellCmdRun "my-db" (some "select 1") sampleEnv).2 = 1 ∧
    stopTransitions (shellCmdRun "my-db" (some "select 1") sampleEnv).2 false = 0 := by
  have h := c1_stop_transitions "my-db" sampleEnv (some sampleDb) "tok"
    (by decide) rfl rfl (by decide) (by decide) rfl
  exact ⟨by decide, by decide, h.1.1, h.1.2,
    (h.2 "select 1" (by decide)).1, (h.2 "select 1" (by decide)).2⟩

/-- C6: when resolution yields a raw external endpoint (no associated
database), no credential request is made: `tokenFromDb` on a nil database
returns an empty token and no error without contacting the credential
endpoint, and the whole invocation's trace contains no credential
request. -/
theorem c6_no_token_for_external (client : TursoClient) (nameOrUrl : String)
    (sqlArg : Option String) (env : ShellEnv)
    (hres : databaseFromNameOrURL nameOrUrl env.client = .ok none) :
    tokenFromDb none client = (.ok "", []) ∧
    tokenRequests (shellCmdRun nameOrUrl sqlArg env).2 = 0 := by
  refine ⟨rfl, ?_⟩
  by_cases hname : nameOrUrl = ""
  · simp [shellCmdRun, hname, tokenRequests]
  · cases hcl : env.clientErr with
    | some e => cases sqlArg <;> simp [shellCmdRun, if_neg hname, hcl, tokenRequests]
    | none =>
      cases hst : env.settingsErr with
      | some e => cases sqlArg <;> simp [shellCmdRun, if_neg hname, hcl, hst, tokenRequests]
      | none =>
        cases sqlArg with
        | none =>
          cases hco : env.shellB.connectOk <;>
            simp [shellCmdRun, if_neg hname, hcl, hst, hres, tokenFromDb, runShellM,
              hco, tokenRequests]
        | some sql =>
          by_cases hsql : sql = ""
          · simp [shellCmdRun, if_neg hname, hcl, hst, hres, tokenFromDb, hsql,
              tokenRequests]
          · cases hco : env.shellB.connectOk <;>
              simp [shellCmdRun, if_neg hname, hcl, hst, hres, tokenFromDb,
                if_neg hsql, runShellLineM, hco, tokenRequests]

/-- C6 witness: an external URL matching no known database resolves to a
raw endpoint and the run makes no credential request. -/
theorem c6_no_token_for_external_witness :
    databaseFromNameOrURL "libsql://external.example.net" sampleClient = .ok none ∧
    tokenFromDb none sampleClient = (.ok "", []) ∧
    tokenRequests (shellCmdRun "libsql://external.example.net" none sampleEnv).2 = 0 := by
  have h := c6_no_token_for_external sampleClient "libsql://external.example.net"
    none sampleEnv (by decide)
  exact ⟨by decide, h.1, h.2⟩

/-- C7: whenever resolution yields a known database and the credential
endpoint issues a token, every endpoint string handed to the REPL front
end — in either mode — is the database's HTTP URL with the token appended
once at resolution time as the `?jwt=` query parameter. -/
theorem c7_known_db_endpoint (nameOrUrl : String) (sqlArg : Option String)
    (env : ShellEnv) (d : Database) (token : String)
    (hres : databaseFromNameOrURL nameOrUrl env.client = .ok (some d))
    (htok : env.client.tokenResult d.Name = .ok token) :
    (runPaths (shellCmdRun nameOrUrl sqlArg env).2).all
      (fun p => p == addTokenAsQueryParameter (getDatabaseHttpUrl d) token) = true := by
  by_cases hname : nameOrUrl = ""
  · simp [shellCmdRun, hname, runPaths]
  · cases hcl : env.clientErr with
    | some e => cases sqlArg <;> simp [shellCmdRun, if_neg hname, hcl, runPaths]
    | none =>
      cases hst : env.settingsErr with
      | some e => cases sqlArg <;> simp [shellCmdRun, if_neg hname, hcl, hst, runPaths]
      | none =>
        cases sqlArg with
        | none =>
          cases hco : env.shellB.connectOk <;>
            simp [shellCmdRun, if_neg hname, hcl, hst, hres, tokenFromDb, htok,
              runShellM, hco, runPaths]
        | some sql =>
          by_cases hsql : sql = ""
          · simp [shellCmdRun, if_neg hname, hcl, hst, hres, tokenFromDb, htok, hsql,
              runPaths]
          · cases hco : env.shellB.connectOk <;>
              simp [shellCmdRun, if_neg hname, hcl, hst, hres, tokenFromDb, htok,
                if_neg hsql, runShellLineM, hco, runPaths]

/-- C7 witness: the spec's scenario — `my-db` resolves to the
token-bearing endpoint `https://my-db-org.example.io?jwt=tok`. -/
theorem c7_known_db_endpoint_witness :
    databaseFromNameOrURL "my-db" sampleEnv.client = .ok (some sampleDb) ∧
    sampleEnv.client.tokenResult "my-db" = .ok "tok" ∧
    addTokenAsQueryParameter (getDatabaseHttpUrl sampleDb) "tok" =
      "https://my-db-org.example.io?jwt=tok" ∧
    (runPaths (shellCmdRun "my-db" none sampleEnv).2).all
      (fun p => p == addTokenAsQueryParameter (getDatabaseHttpUrl sampleDb) "tok") = true :=
  ⟨by decide, by decide, by decide,
   c7_known_db_endpoint "my-db" none sampleEnv sampleDb "tok" (by decide) (by decide)⟩

/-- C9: every invocation whose second positional argument is the empty
string fails (non-zero outcome) and executes no SQL: no line and no
interactive session is ever handed to the REPL front end; on every path
where resolution and credential issuance succeed, the failure is the
usage error "no SQL command to execute". -/
theorem c9_empty_sql_usage_error (nameOrUrl : String) (env : ShellEnv) :
    ((shellCmdRun nameOrUrl (some "") env).1.isOk = false ∧
     runPaths (shellCmdRun nameOrUrl (some "") env).2 = []) ∧
    (∀ db token evs, nameOrUrl ≠ "" →
      env.clientErr = none → env.settingsErr = none →
      databaseFromNameOrURL nameOrUrl env.client = .ok db →
      tokenFromDb db env.client = (.ok token, evs) →
      (shellCmdRun nameOrUrl (some "") env).1 =
        .error ⟨"no SQL command to execute"⟩) := by
  refine ⟨?_, ?_⟩
  case refine_2 =>
    intro db token evs hname hcl hst hres hpair
    simp [shellCmdRun, if_neg hname, hcl, hst, hres, hpair]
  by_cases hname : nameOrUrl = ""
  · simp [shellCmdRun, hname, runPaths, Except.isOk, Except.toBool]
  · cases hcl : env.clientErr with
    | some e => simp [shellCmdRun, if_neg hname, hcl, runPaths, Except.isOk, Except.toBool]
    | none =>
      cases hst : env.settingsErr with
      | some e =>
        simp [shellCmdRun, if_neg hname, hcl, hst, runPaths, Except.isOk, Except.toBool]
      | none =>
        cases hres : databaseFromNameOrURL nameOrUrl env.client with
        | error e =>
          simp [shellCmdRun, if_neg hname, hcl, hst, hres, runPaths, Except.isOk,
            Except.toBool]
        | ok db =>
          rcases hpair : tokenFromDb db env.client with ⟨res, evs⟩
          have hrt : runPaths evs = [] := by
            have h := runPaths_tokenFromDb db env.client
            rw [hpair] at h
            exact h
          cases res <;>
            simp [shellCmdRun, if_neg hname, hcl, hst, hres, hpair, runPaths_append,
              hrt, runPaths, Except.isOk, Except.toBool]

/-- C9 witness: the empty-SQL invocation in a healthy environment fails
with the usage error and runs nothing. -/
theorem c9_empty_sql_usage_error_witness :
    ((shellCmdRun "my-db" (some "") sampleEnv).1.isOk = false ∧
     runPaths (shellCmdRun "my-db" (some "") sampleEnv).2 = []) ∧
    (shellCmdRun "my-db" (some "") sampleEnv).1 =
      .error ⟨"no SQL command to execute"⟩ :=
  ⟨(c9_empty_sql_usage_error "my-db" sampleEnv).1,
   (c9_empty_sql_usage_error "my-db" sampleEnv).2 (some sampleDb) "tok"
     [Event.tokenRequest "my-db"] (by decide) rfl rfl (by decide) (by decide)⟩

/-! ## Claims C4, C5, C8: the query dispatcher and statement splitter -/

/-- C4: for every statement batch and token, the dispatcher builds
exactly one HTTP POST request to the endpoint URL whose body is the JSON
object with the `statements` field holding the split batch in order, and
the bearer header is attached exactly when the token is non-empty; the
request count is one however many statements the batch contains. -/
theorem c4_single_batched_request (url token stmt : String)
    (h : (urlParse url).isSome = true) :
    doQueryContext url token stmt =
      .ok ⟨"POST", url, goJSONMarshalQueryRequest (splitIntoPieces stmt),
           if token = "" then [] else [("Authorization", "Bearer " ++ token)]⟩ ∧
    (requestsSentBy (doQueryContext url token stmt)).length = 1 := by
  have hreq : newRequestWithContext "POST" url
      (goJSONMarshalQueryRequest (splitIntoPieces stmt)) =
      some ⟨"POST", url, goJSONMarshalQueryRequest (splitIntoPieces stmt), []⟩ := by
    unfold newRequestWithContext
    cases hu : urlParse url with
    | none => rw [hu] at h; simp at h
    | some u => simp
  have h1 : doQueryContext url token stmt =
      .ok ⟨"POST", url, goJSONMarshalQueryRequest (splitIntoPieces stmt),
           if token = "" then [] else [("Authorization", "Bearer " ++ token)]⟩ := by
    unfold doQueryContext SplitStatementToPieces
    simp only [hreq]
    by_cases ht : token = "" <;> simp [ht]
  exact ⟨h1, by rw [h1]; rfl⟩

/-- C4 witness: a two-statement batch becomes one POST request with the
ordered JSON body and the bearer header. -/
theorem c4_single_batched_request_witness :
    (urlParse "https://db.example.io").isSome = true ∧
    doQueryContext "https://db.example.io" "tok" "select 1; select 2" =
      .ok ⟨"POST", "https://db.example.io",
           "\x7b\"statements\":[\"select 1\",\" select 2\"]\x7d",
           [("Authorization", "Bearer tok")]⟩ ∧
    (requestsSentBy
      (doQueryContext "https://db.example.io" "tok" "select 1; select 2")).length = 1 :=
  ⟨by decide,
   (c4_single_batched_request "https://db.example.io" "tok" "select 1; select 2"
      (by decide)).1.trans (by decide),
   (c4_single_batched_request "https://db.example.io" "tok" "select 1; select 2"
      (by decide)).2⟩

/-- C5 counterexample: on the spec's own scenario the second piece keeps
the comment text verbatim instead of being the bare statement; a
whitespace-only segment of two characters is emitted, not dropped; and a
semicolon inside a MySQL-specific `/*! ... */` comment does separate
statements (cutting the outer text inside the comment), so none of
"exactly N non-empty statements", "comment-internal semicolons never
separate" and "whitespace/comment-only segments are dropped" holds as
stated. -/
theorem c5_counterexample :
    SplitStatementToPieces "select 1; -- comment with ; inside\nselect 2;" =
      .ok ["select 1", " -- comment with ; inside\nselect 2"] ∧
    (["select 1", " -- comment with ; inside\nselect 2"] : List String) ≠
      ["select 1", "select 2"] ∧
    SplitStatementToPieces "select 1;  " = .ok ["select 1", "  "] ∧
    SplitStatementToPieces "select /*! ; */ 1" = .ok ["select /*! ; *", " 1"] :=
  ⟨by decide, by decide, by decide, by decide⟩

/-- C5 (amended): the splitter cuts the raw text at semicolon tokens in
source order, each piece being the raw slice between separators, as the
following representative inputs demonstrate: semicolons inside single-
or double-quoted strings, inside plain `/*...*/` block comments or after
`--` line comments do not separate, and leading whitespace and comments
stay in the piece (the spec's scenario yields exactly `"select 1"` and
`" -- comment with ; inside\nselect 2"`); an empty segment before a
semicolon is emitted as an empty statement; a semicolon inside a
MySQL-specific `/*! ... */` comment does separate, cutting the outer
text inside the comment; and the trailing segment is dropped exactly
when it has at most one character — dropping the lone space of
`"select 1; "` and even the one-character statement of `"a;b"` — while
longer trailing segments, whitespace-only ones included, are emitted. -/
theorem c5_split_behavior :
    SplitStatementToPieces "select 1; -- comment with ; inside\nselect 2;" =
      .ok ["select 1", " -- comment with ; inside\nselect 2"] ∧
    SplitStatementToPieces "select 'a;b'; select 2" =
      .ok ["select 'a;b'", " select 2"] ∧
    SplitStatementToPieces "select \"a;b\"; select 2" =
      .ok ["select \"a;b\"", " select 2"] ∧
    SplitStatementToPieces "select 1 /* ; */; select 2" =
      .ok ["select 1 /* ; */", " select 2"] ∧
    SplitStatementToPieces ";" = .ok [""] ∧
    SplitStatementToPieces "select 1;;select 2" =
      .ok ["select 1", "", "select 2"] ∧
    SplitStatementToPieces "select 1;" = .ok ["select 1"] ∧
    SplitStatementToPieces "select 1; " = .ok ["select 1"] ∧
    SplitStatementToPieces "select 1;  " = .ok ["select 1", "  "] ∧
    SplitStatementToPieces "a;b" = .ok ["a"] ∧
    SplitStatementToPieces "select /*! ; */ 1" = .ok ["select /*! ; *", " 1"] :=
  ⟨by decide, by decide, by decide, by decide, by decide, by decide, by decide,
   by decide, by decide, by decide, by decide⟩

/-- C8 counterexample: splitting `select 'unterminated` does not fail —
the whole text comes back as one statement — and the dispatcher then
constructs and sends an HTTP request for it, so the syntax error with no
network call that the claim describes does not happen. -/
theorem c8_counterexample :
    SplitStatementToPieces "select 'unterminated" = .ok ["select 'unterminated"] ∧
    requestsSentBy (doQueryContext "https://db.example.io" "" "select 'unterminated") =
      [⟨"POST", "https://db.example.io",
        "\x7b\"statements\":[\"select 'unterminated\"]\x7d", []⟩] :=
  ⟨by decide, by decide⟩

/-- C8 (amended): if splitting failed the dispatcher would return that
error before building any request, but splitting a string never fails
(the tokenizer's `LastError` is only ever set by the parser, which the
splitter does not run): an unterminated quote yields the whole text as a
single statement instead of a syntax error. -/
theorem c8_split_never_fails :
    (∀ stmt : String, (SplitStatementToPieces stmt).isOk = true) ∧
    SplitStatementToPieces "select 'unterminated" = .ok ["select 'unterminated"] :=
  ⟨fun _ => rfl, by decide⟩
